import Mathlib

/-!
Verification development for the mongos operator's rolling in-place upgrade
orchestrator.  The definitions below are a shallow embedding of the Python
sources:

* `lib/charms/mongos/v0/upgrade_helpers.py` (`AbstractUpgrade`, `UnitState`,
  the health-probe helpers and the tenacity retry wrapper),
* `src/upgrades/machine_upgrade.py` (`Upgrade`: derived `unit_state`,
  `authorized`, `upgrade_unit`, `save_snap_revision_after_first_install`),
* `src/upgrades/mongos_upgrade.py` (`MongosUpgrade`: `_reconcile_upgrade`,
  `_on_upgrade_peer_relation_created`, `_on_force_upgrade_action`,
  `run_post_upgrade_check`, `is_mongos_able_to_read_write`,
  `confirm_excepted_write_cluster`, `clear_tmp_collection`).

The module `src/upgrades/upgrade.py` is referenced by `mongos_upgrade.py` only
for names (`PEER_RELATION_ENDPOINT_NAME`, `UnitState`, `PrecheckFailed`,
`PeerRelationNotReady`) that all exist in
`lib/charms/mongos/v0/upgrade_helpers.py`; it is modelled as re-exporting
those same objects (the `is`-comparison of `UnitState` members and the
`except PrecheckFailed` clause in `mongos_upgrade.py` only work under that
reading).

Python exceptions are modelled with `Except`: a handler that raises leaves the
shared peer state unchanged (the ops framework commits relation-data writes
only when the hook succeeds), so the transition relations below take only the
successful executions as steps.
-/

/-- Python exceptions that the modelled code can raise. -/
inductive PyErr
  /-- `AssertionError` from a failed `assert` statement. -/
  | assertionError
  /-- `KeyError` from a missing dictionary key. -/
  | keyError
  /-- `AttributeError` from a missing attribute. -/
  | attributeError
  /-- `upgrade_helpers.PrecheckFailed`. -/
  | precheckFailed
  /-- any error raised by the pymongo driver while talking to the cluster. -/
  | operationFailure
deriving DecidableEq

deriving instance DecidableEq for Except

/-- A parsed `major.minor.patch` version, as produced by
`poetry.core.constraints.version.Version.parse` on the plain version strings
used by the charm.  Ordered lexicographically. -/
structure SemVer where
  major : Nat
  minor : Nat
  patch : Nat
deriving DecidableEq

/-- Strict order on parsed versions (lexicographic on major, minor, patch),
the order used by `poetry` version comparison for plain versions. -/
def SemVer.ltb (a b : SemVer) : Bool :=
  a.major < b.major ||
    (a.major = b.major && (a.minor < b.minor ||
      (a.minor = b.minor && a.patch < b.patch)))

/-- A charm version string: the parsed `major.minor.patch` part plus the
optional `+<git hash>` build suffix.  `split("+")[0]` in the source keeps only
the `ver` part; raw string equality (used in `Upgrade.authorized`) compares
both fields. -/
structure VersionText where
  ver : SemVer
  build : Option String
deriving DecidableEq

/-- The app databag `versions` value: `json.loads` of the stored JSON object.
Each expected key may be missing (the modelling needed for the fail-closed
analysis of `is_compatible`).  Charm versions carry a build suffix; workload
versions are plain. -/
structure RecordedVersions where
  charm : Option VersionText
  workload : Option SemVer
deriving DecidableEq

/-- `upgrade_helpers.UnitState`. -/
inductive UnitState
  | healthy
  | restarting
  | upgrading
  | outdated
deriving DecidableEq

/-- One unit's slice of the upgrade peer relation databag: the keys `state`,
`snap_revision` and `workload_version` written by
`AbstractUpgrade.unit_state.setter`, `Upgrade._unit_workload_container_version`
and `Upgrade._unit_workload_version`. -/
structure UnitDatabag where
  state : Option UnitState
  snap_revision : Option String
  workload_version : Option SemVer
deriving DecidableEq

/-- The shared peer-relation state: every unit's databag (an association list
keyed by unit ordinal; a missing entry reads as an empty databag, matching
`dict.get` returning `None`) plus the app databag `versions` key. -/
structure Shared where
  unitData : List (Nat × UnitDatabag)
  appVersions : Option RecordedVersions
deriving DecidableEq

/-- Association-list lookup for unit databags. -/
def lookupUD : List (Nat × UnitDatabag) → Nat → Option UnitDatabag
  | [], _ => none
  | (k, d) :: rest, u => if k = u then some d else lookupUD rest u

/-- Read unit `u`'s databag; an absent unit reads as an empty databag. -/
def getUD (sh : Shared) (u : Nat) : UnitDatabag :=
  (lookupUD sh.unitData u).getD ⟨none, none, none⟩

/-- Write unit `u`'s databag (the new entry shadows older ones). -/
def putUD (sh : Shared) (u : Nat) (d : UnitDatabag) : Shared :=
  { sh with unitData := (u, d) :: sh.unitData }

/-- `self._unit_databag["state"] = value.value` (the `unit_state` setter). -/
def setState (sh : Shared) (u : Nat) (s : Option UnitState) : Shared :=
  putUD sh u { getUD sh u with state := s }

/-- `self._unit_databag["snap_revision"] = value`. -/
def setRev (sh : Shared) (u : Nat) (r : String) : Shared :=
  putUD sh u { getUD sh u with snap_revision := some r }

/-- `self._unit_databag["workload_version"] = value`. -/
def setWLV (sh : Shared) (u : Nat) (v : SemVer) : Shared :=
  putUD sh u { getUD sh u with workload_version := some v }

/-- The per-deployment constants and external-collaborator oracles of one
charm revision: the peer group membership, the elected leader, whether the
upgrade peer relation exists on this unit, `_SNAP_REVISION` (the snap revision
shipped with the running charm code), the contents of the `charm_version` and
`workload_version` files, and the environment answers consulted by the
post-upgrade check. -/
structure Config where
  units : List Nat
  leader : Nat
  peerRelation : Bool
  targetRev : String
  currentCharm : VersionText
  currentWorkload : SemVer
  configServerDb : Bool
  mongosRunning : Bool
  probeResult : Except PyErr Bool
deriving DecidableEq

/-- Insert an ordinal into a descending-sorted list, keeping it descending. -/
def insertDesc (x : Nat) : List Nat → List Nat
  | [] => [x]
  | y :: ys => if y ≤ x then x :: y :: ys else y :: insertDesc x ys

/-- Sort ordinals in descending order (insertion sort). -/
def sortDesc : List Nat → List Nat
  | [] => []
  | x :: xs => insertDesc x (sortDesc xs)

/-- `AbstractUpgrade._sorted_units`: all units (self and peers) sorted from
highest to lowest unit number. -/
def sorted_units (cfg : Config) : List Nat :=
  sortDesc cfg.units

/-- `Upgrade._unit_workload_container_version` for unit `u`: the
`snap_revision` key of that unit's databag. -/
def unitWCV (sh : Shared) (u : Nat) : Option String :=
  (getUD sh u).snap_revision

/-- `AbstractUpgrade.in_progress`: some unit has a recorded snap revision that
differs from `_app_workload_container_version` (units without a recorded
revision are absent from `_unit_workload_container_versions` and do not
count). -/
def in_progress (cfg : Config) (sh : Shared) : Bool :=
  (sorted_units cfg).any fun u =>
    match unitWCV sh u with
    | some v => decide (v ≠ cfg.targetRev)
    | none => false

/-- `AbstractUpgrade.versions_set`: the app databag `versions` key exists. -/
def versions_set (sh : Shared) : Bool :=
  sh.appVersions.isSome

/-- `Upgrade.unit_state` (the machine-charm derived state): `OUTDATED` when
this unit has a recorded snap revision different from the app's; otherwise the
stored databag `state`. -/
def unit_state (cfg : Config) (sh : Shared) (u : Nat) : Option UnitState :=
  match unitWCV sh u with
  | some v => if v ≠ cfg.targetRev then some .outdated else (getUD sh u).state
  | none => (getUD sh u).state

/-- `AbstractUpgrade.is_compatible`.  Mirrors the source control flow:

1. `assert self.versions_set` — an absent app `versions` record raises
   `AssertionError` (the `except KeyError` around `json.loads` is dead under
   enabled assertions).
2. `previous_version_strs["charm"].split("+")[0]` — a recorded dict without a
   `"charm"` key raises `KeyError` *outside* any handler.
3. The charm comparison uses build-stripped versions; `previous > current` or
   a differing major component returns `False`.
4. `previous_versions["workload"]` — a missing `"workload"` key raises
   `KeyError` inside the handler at the bottom of the method and returns
   `False`; otherwise the workload comparison mirrors the charm one. -/
def is_compatible (cfg : Config) (sh : Shared) : Except PyErr Bool :=
  match sh.appVersions with
  | none => .error .assertionError
  | some rec =>
    match rec.charm with
    | none => .error .keyError
    | some prevCharm =>
      if SemVer.ltb cfg.currentCharm.ver prevCharm.ver
          || decide (prevCharm.ver.major ≠ cfg.currentCharm.ver.major) then
        .ok false
      else
        match rec.workload with
        | none => .ok false
        | some prevW =>
          if SemVer.ltb cfg.currentWorkload prevW
              || decide (prevW.major ≠ cfg.currentWorkload.major) then
            .ok false
          else
            .ok true

/-- `AbstractUpgrade.set_versions_in_app_databag`: `assert not
self.in_progress`, then store the current charm and workload versions under
the app databag `versions` key. -/
def set_versions_in_app_databag (cfg : Config) (sh : Shared) :
    Except PyErr Shared :=
  if in_progress cfg sh then .error .assertionError
  else
    .ok { sh with
          appVersions := some ⟨some cfg.currentCharm, some cfg.currentWorkload⟩ }

/-- `AbstractUpgrade.pre_upgrade_check` as it behaves in this repository.  Its
first statement reads `self.charm.mongos_initialised`, but
`AbstractUpgrade.__init__` stores the charm object as `self._charm` and never
sets a `charm` attribute, so the attribute access raises `AttributeError`
before anything else runs (independently, `MongosOperatorCharm` defines no
`mongos_initialised` attribute and `Upgrade` inherits no
`is_mongos_able_to_read_write` method, so the later lines could not run
either).  The method's docstring promises `PrecheckFailed`; the constructor
`PyErr.precheckFailed` is what the code would raise if the health check ran
and failed. -/
def pre_upgrade_check : Except PyErr Unit :=
  .error .attributeError

/-- The `for index, unit in enumerate(self._sorted_units)` loop of
`Upgrade.authorized`.  `first` records whether the current element is at index
0.  At self's entry: index 0 compares the raw recorded charm version string
with the unit's own (`json.loads(self._app_databag["versions"])["charm"] ==
self._current_versions["charm"]`, both unstripped); equality means rollback
and skips the pre-refresh check, otherwise `pre_upgrade_check()` runs.  At any
other index, reaching self returns `True`.  A unit before self whose recorded
snap revision differs from the app's, or whose recorded state is not
`HEALTHY`, returns `False`.  A loop that never finds self returns `False`. -/
def authorizedLoop (cfg : Config) (sh : Shared) (u : Nat) :
    Bool → List Nat → Except PyErr Bool
  | _, [] => .ok false
  | first, v :: rest =>
    if v = u then
      if first then
        match sh.appVersions with
        | none => .error .keyError
        | some rec =>
          match rec.charm with
          | none => .error .keyError
          | some prevCharm =>
            if prevCharm = cfg.currentCharm then .ok true
            else
              match pre_upgrade_check with
              | .error e => .error e
              | .ok _ => .ok true
      else .ok true
    else
      if unitWCV sh v = some cfg.targetRev ∧
          (getUD sh v).state = some UnitState.healthy then
        authorizedLoop cfg sh u false rest
      else .ok false

/-- `Upgrade.authorized`: the two leading assertions (`snap_revision` of this
unit differs from `_SNAP_REVISION`; `versions_set`), then the walk over
`_sorted_units`. -/
def authorized (cfg : Config) (sh : Shared) (u : Nat) : Except PyErr Bool :=
  if unitWCV sh u = some cfg.targetRev then .error .assertionError
  else if versions_set sh = false then .error .assertionError
  else authorizedLoop cfg sh u true (sorted_units cfg)

/-- The externally visible steps taken by `Upgrade.upgrade_unit`, in program
order. -/
inductive UAction
  | setUnitState (s : UnitState)
  | stopMongos
  | installSnap
  | startMongos
  | setSnapRevision (r : String)
  | setWorkloadVersion (v : SemVer)
  | emitPostUpgradeEvent
deriving DecidableEq

/-- The shared-state effect of a completed `Upgrade.upgrade_unit` run: state
`UPGRADING`, then the new snap revision and workload version recorded in the
unit's own databag. -/
def upgradedShared (cfg : Config) (sh : Shared) (u : Nat) : Shared :=
  setWLV (setRev (setState sh u (some .upgrading)) u cfg.targetRev) u
    cfg.currentWorkload

/-- `Upgrade.upgrade_unit`.  Its first statement is
`logger.debug(f"Upgrading {self.authorized=}")`: the f-string eagerly
evaluates the `authorized` property, so any exception raised there (the
assertions, the `KeyError` on a recorded dict without `"charm"`, or the
`pre_upgrade_check` failure) propagates before any step of the upgrade runs.
When the evaluation returns (its boolean value is only logged), the procedure
is the straight-line sequence recorded in the trace. -/
def upgrade_unit (cfg : Config) (sh : Shared) (u : Nat) :
    Except PyErr (Shared × List UAction) :=
  match authorized cfg sh u with
  | .error e => .error e
  | .ok _ =>
    .ok (upgradedShared cfg sh u,
      [.setUnitState .upgrading, .stopMongos, .installSnap, .startMongos,
       .setSnapRevision cfg.targetRev, .setWorkloadVersion cfg.currentWorkload,
       .emitPostUpgradeEvent])

/-- `Upgrade.save_snap_revision_after_first_install`: record `_SNAP_REVISION`
and the current workload version in this unit's databag. -/
def save_snap_revision_after_first_install (cfg : Config) (sh : Shared)
    (u : Nat) : Shared :=
  setWLV (setRev sh u cfg.targetRev) u cfg.currentWorkload

/-- `MongosUpgrade._on_upgrade_peer_relation_created`: save the snap revision,
then, on the leader and only when no upgrade is in progress (checked on the
state already containing the saved revision), record the group versions. -/
def on_upgrade_peer_relation_created (cfg : Config) (sh : Shared) (u : Nat) :
    Except PyErr Shared :=
  if u = cfg.leader ∧
      in_progress cfg (save_snap_revision_after_first_install cfg sh u) = false
  then set_versions_in_app_databag cfg (save_snap_revision_after_first_install cfg sh u)
  else .ok (save_snap_revision_after_first_install cfg sh u)

/-- The step of `MongosUpgrade._reconcile_upgrade` that re-records group
versions: `if self.charm.unit.is_leader() and not self._upgrade.in_progress:
self._upgrade.set_versions_in_app_databag()`. -/
def reconcileSetVersionsStep (cfg : Config) (sh : Shared) (u : Nat) :
    Except PyErr Shared :=
  if u = cfg.leader ∧ in_progress cfg sh = false then
    set_versions_in_app_databag cfg sh
  else .ok sh

/-- How one `_reconcile_upgrade` pass ended (the published statuses are
summarised by the constructor; they live outside the shared peer state). -/
inductive ROutcome
  | noPeerRelation
  | versionsUnset
  | incompatible
  | precheckBlocked
  | upgraded
  | waitingToUpgrade
  | statusOnly
deriving DecidableEq

/-- `MongosUpgrade._reconcile_upgrade`.  The `try`/`except PrecheckFailed`
covers only the evaluation of `self._upgrade.authorized`; an exception raised
by `upgrade_unit` (which re-evaluates `authorized` for its debug log) is not
caught.  `_set_upgrade_status` only publishes statuses: its own
`is_compatible` re-evaluation returns the same value as the one already
computed here, so it adds no state change and no new exception. -/
def reconcile_upgrade (cfg : Config) (sh : Shared) (u : Nat) :
    Except PyErr (Shared × ROutcome) :=
  if cfg.peerRelation = false then .ok (sh, .noPeerRelation)
  else if versions_set sh = false then .ok (sh, .versionsUnset)
  else
    match reconcileSetVersionsStep cfg sh u with
    | .error e => .error e
    | .ok sh1 =>
      match is_compatible cfg sh1 with
      | .error e => .error e
      | .ok false => .ok (sh1, .incompatible)
      | .ok true =>
        if unit_state cfg sh1 u = some .outdated then
          match authorized cfg sh1 u with
          | .error .precheckFailed => .ok (sh1, .precheckBlocked)
          | .error e => .error e
          | .ok true =>
            match upgrade_unit cfg sh1 u with
            | .error e => .error e
            | .ok r => .ok (r.1, .upgraded)
          | .ok false => .ok (sh1, .waitingToUpgrade)
        else .ok (sh1, .statusOnly)

/-- Result of the `force-upgrade` action handler. -/
inductive FResult
  | failed (msg : String)
  | upgraded
deriving DecidableEq

/-- `MongosUpgrade._on_force_upgrade_action`: fail when the peer relation is
unavailable or no upgrade is in progress; fail when the (derived) unit state
is not `outdated` (the `str`-enum comparison `unit_state != "outdated"` is
also true when the state is `None`); otherwise run `upgrade_unit` — whose
debug-log evaluation of `authorized` may raise — and report success. -/
def on_force_upgrade_action (cfg : Config) (sh : Shared) (u : Nat) :
    Except PyErr (Shared × FResult) :=
  if cfg.peerRelation = false ∨ in_progress cfg sh = false then
    .ok (sh, .failed "No upgrade in progress")
  else if unit_state cfg sh u ≠ some .outdated then
    .ok (sh, .failed "Unit already upgraded")
  else
    match upgrade_unit cfg sh u with
    | .error e => .error e
    | .ok r => .ok (r.1, .upgraded)

/-- `MongosUpgrade.run_post_upgrade_check` (with `run_post_upgrade_checks`
inlined): with no config-server the unit is marked `HEALTHY` immediately; when
mongos is not running, or the health probe reports failure, the event is
deferred with no state change; a probe that raises propagates; a passing probe
marks the unit `HEALTHY`. -/
def run_post_upgrade_check (cfg : Config) (sh : Shared) (u : Nat) :
    Except PyErr Shared :=
  if cfg.configServerDb = false then .ok (setState sh u (some .healthy))
  else if cfg.mongosRunning = false then .ok sh
  else
    match cfg.probeResult with
    | .error e => .error e
    | .ok false => .ok sh
    | .ok true => .ok (setState sh u (some .healthy))

/-- One automatic transition of the upgrade orchestrator: a successful run of
the peer-relation-created handler, a reconcile pass, or the deferred
post-upgrade check, by any unit of the group.  Runs that raise are excluded:
the ops framework discards relation-data writes when a hook fails. -/
inductive AutoStep (cfg : Config) : Shared → Shared → Prop
  | relCreated (u : Nat) (sh sh' : Shared) (hu : u ∈ cfg.units)
      (h : on_upgrade_peer_relation_created cfg sh u = .ok sh') :
      AutoStep cfg sh sh'
  | reconcile (u : Nat) (sh sh' : Shared) (o : ROutcome) (hu : u ∈ cfg.units)
      (h : reconcile_upgrade cfg sh u = .ok (sh', o)) :
      AutoStep cfg sh sh'
  | postCheck (u : Nat) (sh sh' : Shared) (hu : u ∈ cfg.units)
      (h : run_post_upgrade_check cfg sh u = .ok sh') :
      AutoStep cfg sh sh'

/-- Any transition: an automatic step or a successful `force-upgrade`
action. -/
inductive AnyStep (cfg : Config) : Shared → Shared → Prop
  | auto (sh sh' : Shared) (h : AutoStep cfg sh sh') : AnyStep cfg sh sh'
  | force (u : Nat) (sh sh' : Shared) (r : FResult) (hu : u ∈ cfg.units)
      (h : on_force_upgrade_action cfg sh u = .ok (sh', r)) :
      AnyStep cfg sh sh'

/-- States reachable from `s0` using only automatic steps. -/
inductive ReachAuto (cfg : Config) (s0 : Shared) : Shared → Prop
  | refl : ReachAuto cfg s0 s0
  | tail (s s' : Shared) (h : ReachAuto cfg s0 s) (hs : AutoStep cfg s s') :
      ReachAuto cfg s0 s'

/-- States reachable from `s0` using automatic steps and forced upgrades. -/
inductive ReachAny (cfg : Config) (s0 : Shared) : Shared → Prop
  | refl : ReachAny cfg s0 s0
  | tail (s s' : Shared) (h : ReachAny cfg s0 s) (hs : AnyStep cfg s s') :
      ReachAny cfg s0 s'

/-- No unit databag in `sh` stores the literal state `upgrading` (the charm
writes that value only while an upgrade of the unit is mid-flight). -/
def NoStoredUpgrading (sh : Shared) : Bool :=
  sh.unitData.all fun p => decide (p.2.state ≠ some UnitState.upgrading)

/-- No unit databag in `sh` stores the literal state `outdated` (this charm
never writes that value: `OUTDATED` is derived from a snap-revision mismatch
by `Upgrade.unit_state`). -/
def NoStoredOutdated (sh : Shared) : Bool :=
  sh.unitData.all fun p => decide (p.2.state ≠ some UnitState.outdated)

/-- Every unit ranked above `u` has recorded the app's target snap revision
and published state `HEALTHY` (the condition the claim C1 compares
`authorized` against). -/
def HigherUnitsOk (cfg : Config) (sh : Shared) (u : Nat) : Prop :=
  ∀ a ∈ cfg.units, u < a →
    unitWCV sh a = some cfg.targetRev ∧
      (getUD sh a).state = some UnitState.healthy

instance (cfg : Config) (sh : Shared) (u : Nat) :
    Decidable (HigherUnitsOk cfg sh u) :=
  inferInstanceAs (Decidable (∀ a ∈ cfg.units, _ → _ ∧ _))

/-- The environment of one `is_mongos_able_to_read_write` run: the random
collection name and marker value drawn by `get_random_write_and_collection`,
the outcome of `insert_one`, and for every retry attempt `k` the outcome of
`query[0][WRITE_KEY]` (reading the document back; an exception models both a
failing query and an empty cursor). -/
structure ProbeEnv where
  collName : String
  writeValue : String
  insertResult : Except PyErr Unit
  read : Nat → Except PyErr String

/-- The body of `confirm_excepted_write_cluster` on attempt `k`: read the
marker back; a raised error propagates; a value different from the expected
one returns `False`, otherwise `True`. -/
def confirmAttempt (env : ProbeEnv) (expected : String) (k : Nat) :
    Except PyErr Bool :=
  match env.read k with
  | .error e => .error e
  | .ok v => if v ≠ expected then .ok false else .ok true

/-- Outcome of a tenacity-wrapped call: the returned value or re-raised last
error, the number of attempts made, and the number of 1-second fixed waits
performed between attempts. -/
structure RetryResult where
  result : Except PyErr Bool
  attempts : Nat
  sleeps : Nat
deriving DecidableEq

/-- The `tenacity.retry(stop=stop_after_attempt(10), wait=wait_fixed(1),
reraise=True)` loop: an attempt that returns a value ends the call (tenacity
retries only on exceptions); an attempt that raises is retried after a
1-second wait until the attempt budget is exhausted, and the last error is
then re-raised.  `fuel` is the remaining attempt budget and `k` the index of
the current attempt (so `k` waits have already happened). -/
def retryGo (env : ProbeEnv) (expected : String) :
    Nat → Nat → RetryResult
  | 0, k => ⟨.ok false, k, k⟩
  | fuel + 1, k =>
    match confirmAttempt env expected k with
    | .ok b => ⟨.ok b, k + 1, k⟩
    | .error e =>
      if fuel = 0 then ⟨.error e, k + 1, k⟩
      else retryGo env expected fuel (k + 1)

/-- `MongosUpgrade.confirm_excepted_write_cluster` with its retry decorator:
up to 10 attempts starting at attempt 0. -/
def confirm_excepted_write_cluster (env : ProbeEnv) (expected : String) :
    RetryResult :=
  retryGo env expected 10 0

/-- The observable cluster operations of one `is_mongos_able_to_read_write`
run. -/
inductive ProbeAction
  | insertDoc (coll val : String)
  | readAttempt (k : Nat)
  | dropColl (coll : String)
deriving DecidableEq

/-- `MongosUpgrade.is_mongos_able_to_read_write`: insert the marker document,
read it back through `confirm_excepted_write_cluster`, then
`clear_tmp_collection`.  The drop is a plain statement after the confirm call
(no `try`/`finally`), so it runs only when the confirm call returns; an
exception from the insert or from the exhausted retry loop propagates past
it.  The returned boolean is the confirm result. -/
def is_mongos_able_to_read_write (env : ProbeEnv) :
    Except PyErr Bool × List ProbeAction :=
  match env.insertResult with
  | .error e => (.error e, [.insertDoc env.collName env.writeValue])
  | .ok _ =>
    let r := confirm_excepted_write_cluster env env.writeValue
    let trace := ProbeAction.insertDoc env.collName env.writeValue ::
      (List.range r.attempts).map ProbeAction.readAttempt
    match r.result with
    | .error e => (.error e, trace)
    | .ok b => (.ok b, trace ++ [.dropColl env.collName])

/-- Concrete charm constants shared by the scenario states: two units `1` and
`0`, leader `1`, target snap revision `"r2"`, current charm `1.0.1+abc`,
current workload `6.0.6`. -/
def cfgA : Config :=
  { units := [1, 0]
    leader := 1
    peerRelation := true
    targetRev := "r2"
    currentCharm := ⟨⟨1, 0, 1⟩, some "abc"⟩
    currentWorkload := ⟨6, 0, 6⟩
    configServerDb := false
    mongosRunning := true
    probeResult := .ok true }

/-- Scenario state: both units still on the old snap revision `"r1"`, both
recorded `HEALTHY`, app versions recorded as charm `1.0.0+xyz` / workload
`6.0.6` (an upgrade to `cfgA` is in progress and compatible). -/
def shBothOld : Shared :=
  { unitData :=
      [(1, ⟨some .healthy, some "r1", some ⟨6, 0, 6⟩⟩),
       (0, ⟨some .healthy, some "r1", some ⟨6, 0, 6⟩⟩)]
    appVersions := some ⟨some ⟨⟨1, 0, 0⟩, some "xyz"⟩, some ⟨6, 0, 6⟩⟩ }

/-- Scenario state: unit `1` already upgraded to `"r2"` and `HEALTHY`, unit
`0` still on `"r1"`. -/
def shTopUpgraded : Shared :=
  { unitData :=
      [(1, ⟨some .healthy, some "r2", some ⟨6, 0, 6⟩⟩),
       (0, ⟨some .healthy, some "r1", some ⟨6, 0, 6⟩⟩)]
    appVersions := some ⟨some ⟨⟨1, 0, 0⟩, some "xyz"⟩, some ⟨6, 0, 6⟩⟩ }

/-- Scenario state: like `shBothOld` but the recorded charm version equals the
current one (`1.0.1+abc`), the rollback situation in which
`Upgrade.authorized` skips the pre-refresh check. -/
def shRollback : Shared :=
  { unitData :=
      [(1, ⟨some .healthy, some "r1", some ⟨6, 0, 6⟩⟩),
       (0, ⟨some .healthy, some "r1", some ⟨6, 0, 6⟩⟩)]
    appVersions := some ⟨some ⟨⟨1, 0, 1⟩, some "abc"⟩, some ⟨6, 0, 6⟩⟩ }

/-- Scenario state: app `versions` record absent. -/
def shNoVersions : Shared :=
  { unitData :=
      [(1, ⟨some .healthy, some "r1", some ⟨6, 0, 6⟩⟩),
       (0, ⟨some .healthy, some "r1", some ⟨6, 0, 6⟩⟩)]
    appVersions := none }

/-- The state after forcing the upgrade of unit `0` from `shBothOld`: unit `0`
is `UPGRADING` at revision `"r2"` while unit `1` is still on `"r1"`. -/
def shForcedLow : Shared :=
  upgradedShared cfgA shBothOld 0

/-- Scenario state: both units already on the target revision `"r2"` and
`HEALTHY` (no upgrade in progress). -/
def shAllNew : Shared :=
  { unitData :=
      [(1, ⟨some .healthy, some "r2", some ⟨6, 0, 6⟩⟩),
       (0, ⟨some .healthy, some "r2", some ⟨6, 0, 6⟩⟩)]
    appVersions := some ⟨some ⟨⟨1, 0, 1⟩, some "abc"⟩, some ⟨6, 0, 6⟩⟩ }

/-- Scenario state: the recorded charm version has a higher major component
(`2.0.0`) than the current charm (`1.0.1`) — a charm major-version
downgrade. -/
def shCharmMajorDrop : Shared :=
  { unitData :=
      [(1, ⟨some .healthy, some "r1", some ⟨6, 0, 6⟩⟩),
       (0, ⟨some .healthy, some "r1", some ⟨6, 0, 6⟩⟩)]
    appVersions := some ⟨some ⟨⟨2, 0, 0⟩, none⟩, some ⟨6, 0, 6⟩⟩ }

/-- The ordering invariant behind P2: whenever a unit has stored state
`UPGRADING`, every unit ranked above it has already recorded the app's target
snap revision. -/
def UpgradingImpliesHigherDone (cfg : Config) (sh : Shared) : Prop :=
  ∀ b ∈ cfg.units, (getUD sh b).state = some UnitState.upgrading →
    ∀ a ∈ cfg.units, b < a → unitWCV sh a = some cfg.targetRev

/-- Probe environment whose reads always raise a pymongo error. -/
def envAllRaise : ProbeEnv :=
  { collName := "collection_c1"
    writeValue := "unique_write_w1"
    insertResult := .ok ()
    read := fun _ => .error .operationFailure }

/-- Probe environment whose reads always succeed with a marker value that
never matches the expected one. -/
def envMismatch : ProbeEnv :=
  { collName := "collection_c2"
    writeValue := "unique_write_w2"
    insertResult := .ok ()
    read := fun _ => .ok "unique_write_other" }

/-! ### Helper lemmas: sorting -/

theorem mem_insertDesc {a x : Nat} :
    ∀ {l : List Nat}, a ∈ insertDesc x l ↔ a = x ∨ a ∈ l := by
  intro l
  induction l with
  | nil => simp [insertDesc]
  | cons y ys ih =>
    by_cases h : y ≤ x
    · simp [insertDesc, h]
    · simp only [insertDesc, if_neg h, List.mem_cons, ih]
      tauto

theorem insertDesc_perm (x : Nat) : ∀ (l : List Nat), (insertDesc x l).Perm (x :: l) := by
  intro l
  induction l with
  | nil => simp [insertDesc]
  | cons y ys ih =>
    by_cases h : y ≤ x
    · simp [insertDesc, h]
    · simp only [insertDesc, if_neg h]
      exact (List.Perm.cons y ih).trans (List.Perm.swap x y ys)

theorem sortDesc_perm : ∀ (l : List Nat), (sortDesc l).Perm l := by
  intro l
  induction l with
  | nil => simp [sortDesc]
  | cons x xs ih =>
    exact (insertDesc_perm x (sortDesc xs)).trans (List.Perm.cons x ih)

theorem pairwise_ge_insertDesc {x : Nat} :
    ∀ {l : List Nat}, l.Pairwise (· ≥ ·) → (insertDesc x l).Pairwise (· ≥ ·) := by
  intro l
  induction l with
  | nil => intro _; simp [insertDesc]
  | cons y ys ih =>
    intro h
    rw [List.pairwise_cons] at h
    obtain ⟨hy, hys⟩ := h
    by_cases hle : y ≤ x
    · simp only [insertDesc, if_pos hle]
      rw [List.pairwise_cons]
      refine ⟨?_, ?_⟩
      · intro b hb
        rcases List.mem_cons.mp hb with rfl | hb
        · exact hle
        · exact le_trans (hy b hb) hle
      · rw [List.pairwise_cons]
        exact ⟨hy, hys⟩
    · simp only [insertDesc, if_neg hle]
      rw [List.pairwise_cons]
      refine ⟨?_, ih hys⟩
      intro b hb
      rcases mem_insertDesc.mp hb with rfl | hb
      · exact le_of_lt (Nat.lt_of_not_le hle)
      · exact hy b hb

theorem pairwise_ge_sortDesc : ∀ (l : List Nat), (sortDesc l).Pairwise (· ≥ ·) := by
  intro l
  induction l with
  | nil => simp [sortDesc]
  | cons x xs ih => exact pairwise_ge_insertDesc ih

theorem mem_sorted_units {cfg : Config} {a : Nat} :
    a ∈ sorted_units cfg ↔ a ∈ cfg.units :=
  (sortDesc_perm cfg.units).mem_iff

theorem pairwise_gt_sorted_units {cfg : Config} (hnd : cfg.units.Nodup) :
    (sorted_units cfg).Pairwise (· > ·) := by
  have hge : (sorted_units cfg).Pairwise (· ≥ ·) := pairwise_ge_sortDesc cfg.units
  have hnd' : (sorted_units cfg).Nodup := (sortDesc_perm cfg.units).symm.nodup hnd
  exact (List.Pairwise.and hge hnd').imp
    (fun h => lt_of_le_of_ne h.1 (Ne.symm h.2))

/-! ### Helper lemmas: databag reads and writes -/

theorem getUD_putUD_self (sh : Shared) (u : Nat) (d : UnitDatabag) :
    getUD (putUD sh u d) u = d := by
  simp [getUD, putUD, lookupUD]

theorem getUD_putUD_ne (sh : Shared) (u w : Nat) (d : UnitDatabag)
    (h : w ≠ u) : getUD (putUD sh u d) w = getUD sh w := by
  simp [getUD, putUD, lookupUD, Ne.symm h]

theorem getUD_setState_self (sh : Shared) (u : Nat) (s : Option UnitState) :
    getUD (setState sh u s) u = { getUD sh u with state := s } := by
  simp [setState, getUD_putUD_self]

theorem getUD_setState_ne (sh : Shared) (u w : Nat) (s : Option UnitState)
    (h : w ≠ u) : getUD (setState sh u s) w = getUD sh w := by
  simp [setState, getUD_putUD_ne _ _ _ _ h]

theorem getUD_upgradedShared_self (cfg : Config) (sh : Shared) (u : Nat) :
    getUD (upgradedShared cfg sh u) u =
      ⟨some .upgrading, some cfg.targetRev, some cfg.currentWorkload⟩ := by
  simp [upgradedShared, setWLV, setRev, setState, getUD_putUD_self]

theorem getUD_upgradedShared_ne (cfg : Config) (sh : Shared) (u w : Nat)
    (h : w ≠ u) : getUD (upgradedShared cfg sh u) w = getUD sh w := by
  simp [upgradedShared, setWLV, setRev, setState, getUD_putUD_ne _ _ _ _ h]

theorem getUD_save_self (cfg : Config) (sh : Shared) (u : Nat) :
    getUD (save_snap_revision_after_first_install cfg sh u) u =
      ⟨(getUD sh u).state, some cfg.targetRev, some cfg.currentWorkload⟩ := by
  simp [save_snap_revision_after_first_install, setWLV, setRev, getUD_putUD_self]

theorem getUD_save_ne (cfg : Config) (sh : Shared) (u w : Nat) (h : w ≠ u) :
    getUD (save_snap_revision_after_first_install cfg sh u) w = getUD sh w := by
  simp [save_snap_revision_after_first_install, setWLV, setRev,
    getUD_putUD_ne _ _ _ _ h]

theorem getUD_congr_unitData {sh sh' : Shared}
    (h : sh'.unitData = sh.unitData) (w : Nat) : getUD sh' w = getUD sh w := by
  simp [getUD, h]

theorem lookupUD_mem :
    ∀ {l : List (Nat × UnitDatabag)} {u : Nat} {d : UnitDatabag},
      lookupUD l u = some d → (u, d) ∈ l := by
  intro l
  induction l with
  | nil => intro u d h; simp [lookupUD] at h
  | cons p rest ih =>
    intro u d h
    obtain ⟨k, dd⟩ := p
    by_cases hk : k = u
    · subst hk
      simp only [lookupUD, if_pos, Option.some.injEq] at h
      subst h
      exact List.mem_cons_self _ _
    · simp only [lookupUD, if_neg hk] at h
      exact List.mem_cons_of_mem _ (ih h)

theorem noStoredUpgrading_spec {sh : Shared}
    (h : NoStoredUpgrading sh = true) (u : Nat) :
    (getUD sh u).state ≠ some UnitState.upgrading := by
  unfold getUD
  rcases hl : lookupUD sh.unitData u with _ | d
  · simp
  · simp only [Option.getD_some]
    have hmem := lookupUD_mem hl
    have := List.all_eq_true.mp h (u, d) hmem
    simpa using this

theorem noStoredOutdated_spec {sh : Shared}
    (h : NoStoredOutdated sh = true) (u : Nat) :
    (getUD sh u).state ≠ some UnitState.outdated := by
  unfold getUD
  rcases hl : lookupUD sh.unitData u with _ | d
  · simp
  · simp only [Option.getD_some]
    have hmem := lookupUD_mem hl
    have := List.all_eq_true.mp h (u, d) hmem
    simpa using this

/-! ### Helper lemmas: the authorization walk -/

theorem authorizedLoop_ok_true_higher {cfg : Config} {sh : Shared} {u : Nat} :
    ∀ {l : List Nat} {first : Bool}, l.Pairwise (· > ·) →
      authorizedLoop cfg sh u first l = .ok true →
      ∀ a ∈ l, u < a →
        unitWCV sh a = some cfg.targetRev ∧
          (getUD sh a).state = some UnitState.healthy := by
  intro l
  induction l with
  | nil =>
    intro first _ h
    simp [authorizedLoop] at h
  | cons v rest ih =>
    intro first hpw hloop a ha hua
    rw [List.pairwise_cons] at hpw
    obtain ⟨hv, hrest⟩ := hpw
    by_cases hvu : v = u
    · subst hvu
      rcases List.mem_cons.mp ha with rfl | ha
      · exact absurd hua (lt_irrefl _)
      · exact absurd hua (Nat.not_lt.mpr (Nat.le_of_lt (hv a ha)))
    · simp only [authorizedLoop, if_neg hvu] at hloop
      by_cases hcond : unitWCV sh v = some cfg.targetRev ∧
          (getUD sh v).state = some UnitState.healthy
      · rw [if_pos hcond] at hloop
        rcases List.mem_cons.mp ha with rfl | ha
        · exact hcond
        · exact ih hrest hloop a ha hua
      · rw [if_neg hcond] at hloop
        simp at hloop

theorem authorizedLoop_ok_of_pass {cfg : Config} {sh : Shared} {u : Nat} :
    ∀ {l : List Nat}, l.Pairwise (· > ·) → u ∈ l →
      (∀ a ∈ l, u < a →
        unitWCV sh a = some cfg.targetRev ∧
          (getUD sh a).state = some UnitState.healthy) →
      authorizedLoop cfg sh u false l = .ok true := by
  intro l
  induction l with
  | nil =>
    intro _ h _
    exact absurd h (List.not_mem_nil u)
  | cons v rest ih =>
    intro hpw hmem hpass
    rw [List.pairwise_cons] at hpw
    obtain ⟨hv, hrest⟩ := hpw
    by_cases hvu : v = u
    · subst hvu
      simp [authorizedLoop]
    · have hur : u ∈ rest := by
        rcases List.mem_cons.mp hmem with rfl | h
        · exact absurd rfl hvu
        · exact h
      have hcond := hpass v (List.mem_cons_self v rest) (hv u hur)
      simp only [authorizedLoop, if_neg hvu, if_pos hcond]
      exact ih hrest hur fun a ha hua => hpass a (List.mem_cons_of_mem v ha) hua

theorem authorizedLoop_true_of_pass {cfg : Config} {sh : Shared} {u : Nat}
    {l : List Nat} (hpw : l.Pairwise (· > ·)) (hmem : u ∈ l)
    (htop : ∃ v ∈ l, u < v)
    (hpass : ∀ a ∈ l, u < a →
      unitWCV sh a = some cfg.targetRev ∧
        (getUD sh a).state = some UnitState.healthy) :
    authorizedLoop cfg sh u true l = .ok true := by
  cases l with
  | nil => exact absurd hmem (List.not_mem_nil u)
  | cons v rest =>
    rw [List.pairwise_cons] at hpw
    obtain ⟨hv, hrest⟩ := hpw
    have hvu : v ≠ u := by
      rintro rfl
      obtain ⟨w, hw, huw⟩ := htop
      rcases List.mem_cons.mp hw with rfl | hw
      · exact lt_irrefl _ huw
      · exact Nat.lt_asymm huw (hv w hw)
    have hur : u ∈ rest := by
      rcases List.mem_cons.mp hmem with rfl | h
      · exact absurd rfl hvu
      · exact h
    have hcond := hpass v (List.mem_cons_self v rest) (hv u hur)
    simp only [authorizedLoop, if_neg hvu, if_pos hcond]
    exact authorizedLoop_ok_of_pass hrest hur
      fun a ha hua => hpass a (List.mem_cons_of_mem v ha) hua

theorem authorizedLoop_false_of_fail {cfg : Config} {sh : Shared} {u : Nat} :
    ∀ {l : List Nat} {first : Bool}, l.Pairwise (· > ·) → u ∈ l →
      (∃ a ∈ l, u < a ∧
        ¬(unitWCV sh a = some cfg.targetRev ∧
          (getUD sh a).state = some UnitState.healthy)) →
      authorizedLoop cfg sh u first l = .ok false := by
  intro l
  induction l with
  | nil =>
    intro first _ h _
    exact absurd h (List.not_mem_nil u)
  | cons v rest ih =>
    intro first hpw hmem hfail
    rw [List.pairwise_cons] at hpw
    obtain ⟨hv, hrest⟩ := hpw
    by_cases hvu : v = u
    · subst hvu
      obtain ⟨a, ha, hua, _⟩ := hfail
      rcases List.mem_cons.mp ha with rfl | ha
      · exact absurd hua (lt_irrefl _)
      · exact absurd hua (Nat.not_lt.mpr (Nat.le_of_lt (hv a ha)))
    · by_cases hcond : unitWCV sh v = some cfg.targetRev ∧
          (getUD sh v).state = some UnitState.healthy
      · have hur : u ∈ rest := by
          rcases List.mem_cons.mp hmem with rfl | h
          · exact absurd rfl hvu
          · exact h
        obtain ⟨a, ha, hua, hna⟩ := hfail
        have har : a ∈ rest := by
          rcases List.mem_cons.mp ha with rfl | h
          · exact absurd hcond hna
          · exact h
        simp only [authorizedLoop, if_neg hvu, if_pos hcond]
        exact ih hrest hur ⟨a, har, hua, hna⟩
      · simp only [authorizedLoop, if_neg hvu, if_neg hcond]

theorem authorizedLoop_ne_assert {cfg : Config} {sh : Shared} {u : Nat} :
    ∀ {l : List Nat} {first : Bool},
      authorizedLoop cfg sh u first l ≠ .error .assertionError := by
  intro l
  induction l with
  | nil =>
    intro first h
    simp [authorizedLoop] at h
  | cons v rest ih =>
    intro first h
    simp only [authorizedLoop, pre_upgrade_check] at h
    split at h
    · split at h
      · split at h
        · simp at h
        · split at h
          · simp at h
          · split at h
            · simp at h
            · simp at h
      · simp at h
    · split at h
      · exact ih h
      · simp at h

theorem authorized_ok_true_higher {cfg : Config} {sh : Shared} {u : Nat}
    (hnd : cfg.units.Nodup) (h : authorized cfg sh u = .ok true) :
    ∀ a ∈ cfg.units, u < a →
      unitWCV sh a = some cfg.targetRev ∧
        (getUD sh a).state = some UnitState.healthy := by
  intro a ha hua
  unfold authorized at h
  by_cases h1 : unitWCV sh u = some cfg.targetRev
  · rw [if_pos h1] at h
    simp at h
  · rw [if_neg h1] at h
    by_cases h2 : versions_set sh = false
    · rw [if_pos h2] at h
      simp at h
    · rw [if_neg h2] at h
      exact authorizedLoop_ok_true_higher (pairwise_gt_sorted_units hnd) h a
        (mem_sorted_units.mpr ha) hua

/-! ### Helper lemmas: effects of the handlers on the shared state -/

theorem set_versions_ok_unitData {cfg : Config} {sh sh' : Shared}
    (h : set_versions_in_app_databag cfg sh = .ok sh') :
    sh'.unitData = sh.unitData := by
  unfold set_versions_in_app_databag at h
  split at h
  · simp at h
  · simp only [Except.ok.injEq] at h
    subst h
    rfl

theorem reconcileSetVersionsStep_unitData {cfg : Config} {sh sh' : Shared}
    {u : Nat} (h : reconcileSetVersionsStep cfg sh u = .ok sh') :
    sh'.unitData = sh.unitData := by
  unfold reconcileSetVersionsStep at h
  split at h
  · exact set_versions_ok_unitData h
  · simp only [Except.ok.injEq] at h
    subst h
    rfl

theorem save_effects (cfg : Config) (sh : Shared) (u : Nat) :
    (∀ w, (getUD (save_snap_revision_after_first_install cfg sh u) w).state =
      (getUD sh w).state) ∧
    unitWCV (save_snap_revision_after_first_install cfg sh u) u =
      some cfg.targetRev ∧
    (∀ w, w ≠ u →
      unitWCV (save_snap_revision_after_first_install cfg sh u) w =
        unitWCV sh w) := by
  refine ⟨?_, ?_, ?_⟩
  · intro w
    by_cases hw : w = u
    · subst hw
      rw [getUD_save_self]
    · rw [getUD_save_ne cfg sh u w hw]
  · rw [unitWCV, getUD_save_self]
  · intro w hw
    rw [unitWCV, getUD_save_ne cfg sh u w hw]
    rfl

theorem relCreated_effects {cfg : Config} {sh sh' : Shared} {u : Nat}
    (h : on_upgrade_peer_relation_created cfg sh u = .ok sh') :
    (∀ w, (getUD sh' w).state = (getUD sh w).state) ∧
    unitWCV sh' u = some cfg.targetRev ∧
    (∀ w, w ≠ u → unitWCV sh' w = unitWCV sh w) := by
  obtain ⟨hst, hru, hrw⟩ := save_effects cfg sh u
  unfold on_upgrade_peer_relation_created at h
  have hud : sh'.unitData =
      (save_snap_revision_after_first_install cfg sh u).unitData := by
    split at h
    · exact set_versions_ok_unitData h
    · simp only [Except.ok.injEq] at h
      subst h
      rfl
  refine ⟨?_, ?_, ?_⟩
  · intro w
    rw [getUD_congr_unitData hud w]
    exact hst w
  · rw [unitWCV, getUD_congr_unitData hud u]
    exact hru
  · intro w hw
    rw [unitWCV, getUD_congr_unitData hud w]
    exact hrw w hw

theorem postCheck_effects {cfg : Config} {sh sh' : Shared} {u : Nat}
    (h : run_post_upgrade_check cfg sh u = .ok sh') :
    sh' = sh ∨ sh' = setState sh u (some .healthy) := by
  unfold run_post_upgrade_check at h
  split at h
  · simp only [Except.ok.injEq] at h
    exact Or.inr h.symm
  · split at h
    · simp only [Except.ok.injEq] at h
      exact Or.inl h.symm
    · split at h
      · simp at h
      · simp only [Except.ok.injEq] at h
        exact Or.inl h.symm
      · simp only [Except.ok.injEq] at h
        exact Or.inr h.symm

theorem upgrade_unit_of_ok {cfg : Config} {sh : Shared} {u : Nat} {b : Bool}
    (h : authorized cfg sh u = .ok b) :
    upgrade_unit cfg sh u = .ok (upgradedShared cfg sh u,
      [.setUnitState .upgrading, .stopMongos, .installSnap, .startMongos,
       .setSnapRevision cfg.targetRev, .setWorkloadVersion cfg.currentWorkload,
       .emitPostUpgradeEvent]) := by
  unfold upgrade_unit
  rw [h]

theorem upgrade_unit_of_error {cfg : Config} {sh : Shared} {u : Nat}
    {e : PyErr} (h : authorized cfg sh u = .error e) :
    upgrade_unit cfg sh u = .error e := by
  unfold upgrade_unit
  rw [h]

theorem reconcile_effects {cfg : Config} {sh sh' : Shared} {u : Nat}
    {o : ROutcome} (h : reconcile_upgrade cfg sh u = .ok (sh', o)) :
    sh'.unitData = sh.unitData ∨
      ∃ sh1, sh1.unitData = sh.unitData ∧ authorized cfg sh1 u = .ok true ∧
        sh' = upgradedShared cfg sh1 u := by
  unfold reconcile_upgrade at h
  split at h
  · left
    simp only [Except.ok.injEq, Prod.mk.injEq] at h
    rw [← h.1]
  · split at h
    · left
      simp only [Except.ok.injEq, Prod.mk.injEq] at h
      rw [← h.1]
    · split at h
      · simp at h
      · rename_i sh1 hs1
        have hud1 := reconcileSetVersionsStep_unitData hs1
        split at h
        · simp at h
        · simp only [Except.ok.injEq, Prod.mk.injEq] at h
          left
          rw [← h.1]
          exact hud1
        · split at h
          · split at h
            · simp only [Except.ok.injEq, Prod.mk.injEq] at h
              left
              rw [← h.1]
              exact hud1
            · simp at h
            · rename_i hau
              split at h
              · simp at h
              · rename_i r hr
                simp only [Except.ok.injEq, Prod.mk.injEq] at h
                right
                refine ⟨sh1, hud1, hau, ?_⟩
                rw [upgrade_unit_of_ok hau] at hr
                simp only [Except.ok.injEq] at hr
                rw [← h.1, ← hr]
            · simp only [Except.ok.injEq, Prod.mk.injEq] at h
              left
              rw [← h.1]
              exact hud1
          · simp only [Except.ok.injEq, Prod.mk.injEq] at h
            left
            rw [← h.1]
            exact hud1

theorem force_effects {cfg : Config} {sh sh' : Shared} {u : Nat} {r : FResult}
    (h : on_force_upgrade_action cfg sh u = .ok (sh', r)) :
    sh' = sh ∨ sh' = upgradedShared cfg sh u := by
  unfold on_force_upgrade_action at h
  split at h
  · simp only [Except.ok.injEq, Prod.mk.injEq] at h
    exact Or.inl h.1.symm
  · split at h
    · simp only [Except.ok.injEq, Prod.mk.injEq] at h
      exact Or.inl h.1.symm
    · rcases hau : authorized cfg sh u with e | b
      · rw [upgrade_unit_of_error hau] at h
        simp at h
      · rw [upgrade_unit_of_ok hau] at h
        simp only [Except.ok.injEq, Prod.mk.injEq] at h
        exact Or.inr h.1.symm

/-! ### Helper lemmas: invariants of the step relations -/

theorem autoStep_preserves_inv {cfg : Config} {s s' : Shared}
    (hnd : cfg.units.Nodup) (hs : AutoStep cfg s s')
    (hinv : UpgradingImpliesHigherDone cfg s) :
    UpgradingImpliesHigherDone cfg s' := by
  cases hs with
  | relCreated u sh sh' hu h =>
    obtain ⟨hstate, hrevu, hrev⟩ := relCreated_effects h
    intro b hb hbup a ha hba
    have hbupS : (getUD s b).state = some .upgrading := by
      rw [← hstate b]
      exact hbup
    by_cases hau : a = u
    · subst hau
      exact hrevu
    · rw [hrev a hau]
      exact hinv b hb hbupS a ha hba
  | reconcile u sh sh' o hu h =>
    rcases reconcile_effects h with hud | ⟨sh1, hud1, hauth, rfl⟩
    · intro b hb hbup a ha hba
      rw [unitWCV, getUD_congr_unitData hud a]
      refine hinv b hb ?_ a ha hba
      rw [← getUD_congr_unitData hud b]
      exact hbup
    · intro b hb hbup a ha hba
      by_cases hbu : b = u
      · subst hbu
        have hane : a ≠ b := Nat.ne_of_gt hba
        have hhi := authorized_ok_true_higher hnd hauth a ha hba
        rw [unitWCV, getUD_upgradedShared_ne cfg sh1 b a hane,
          getUD_congr_unitData hud1 a]
        have := hhi.1
        rw [unitWCV, getUD_congr_unitData hud1 a] at this
        exact this
      · have hbup1 : (getUD s b).state = some .upgrading := by
          rw [← getUD_congr_unitData hud1 b,
            ← getUD_upgradedShared_ne cfg sh1 u b hbu]
          exact hbup
        have hrevS := hinv b hb hbup1 a ha hba
        by_cases hau : a = u
        · subst hau
          rw [unitWCV, getUD_upgradedShared_self]
        · rw [unitWCV, getUD_upgradedShared_ne cfg sh1 u a hau,
            getUD_congr_unitData hud1 a]
          exact hrevS
  | postCheck u sh sh' hu h =>
    rcases postCheck_effects h with rfl | rfl
    · exact hinv
    · intro b hb hbup a ha hba
      by_cases hbu : b = u
      · subst hbu
        rw [getUD_setState_self] at hbup
        simp at hbup
      · have hbupS : (getUD s b).state = some .upgrading := by
          rw [← getUD_setState_ne s u b _ hbu]
          exact hbup
        have hrevS := hinv b hb hbupS a ha hba
        by_cases hau : a = u
        · subst hau
          rw [unitWCV, getUD_setState_self]
          exact hrevS
        · rw [unitWCV, getUD_setState_ne s u a _ hau]
          exact hrevS

theorem reachAuto_inv {cfg : Config} {s0 s : Shared} (hnd : cfg.units.Nodup)
    (h0 : NoStoredUpgrading s0 = true) (hr : ReachAuto cfg s0 s) :
    UpgradingImpliesHigherDone cfg s := by
  induction hr with
  | refl =>
    intro b _ hbup
    exact absurd hbup (noStoredUpgrading_spec h0 b)
  | tail s s' h hs ih => exact autoStep_preserves_inv hnd hs ih

theorem autoStep_preserves_noOutdated {cfg : Config} {s s' : Shared}
    (hs : AutoStep cfg s s')
    (h : ∀ w, (getUD s w).state ≠ some UnitState.outdated) :
    ∀ w, (getUD s' w).state ≠ some UnitState.outdated := by
  cases hs with
  | relCreated u sh sh' hu hh =>
    intro w
    rw [(relCreated_effects hh).1 w]
    exact h w
  | reconcile u sh sh' o hu hh =>
    rcases reconcile_effects hh with hud | ⟨sh1, hud1, _, rfl⟩
    · intro w
      rw [getUD_congr_unitData hud w]
      exact h w
    · intro w
      by_cases hw : w = u
      · subst hw
        rw [getUD_upgradedShared_self]
        simp
      · rw [getUD_upgradedShared_ne cfg sh1 u w hw, getUD_congr_unitData hud1 w]
        exact h w
  | postCheck u sh sh' hu hh =>
    rcases postCheck_effects hh with rfl | rfl
    · exact h
    · intro w
      by_cases hw : w = u
      · subst hw
        rw [getUD_setState_self]
        simp
      · rw [getUD_setState_ne s u w _ hw]
        exact h w

theorem anyStep_preserves_noOutdated {cfg : Config} {s s' : Shared}
    (hs : AnyStep cfg s s')
    (h : ∀ w, (getUD s w).state ≠ some UnitState.outdated) :
    ∀ w, (getUD s' w).state ≠ some UnitState.outdated := by
  cases hs with
  | auto sh sh' hh => exact autoStep_preserves_noOutdated hh h
  | force u sh sh' r hu hh =>
    rcases force_effects hh with rfl | rfl
    · exact h
    · intro w
      by_cases hw : w = u
      · subst hw
        rw [getUD_upgradedShared_self]
        simp
      · rw [getUD_upgradedShared_ne cfg s u w hw]
        exact h w

theorem reachAny_noOutdated {cfg : Config} {s0 s : Shared}
    (h0 : NoStoredOutdated s0 = true) (hr : ReachAny cfg s0 s) :
    ∀ w, (getUD s w).state ≠ some UnitState.outdated := by
  induction hr with
  | refl => exact noStoredOutdated_spec h0
  | tail s s' h hs ih => exact anyStep_preserves_noOutdated hs ih

theorem reachAuto_noOutdated {cfg : Config} {s0 s : Shared}
    (h0 : NoStoredOutdated s0 = true) (hr : ReachAuto cfg s0 s) :
    ∀ w, (getUD s w).state ≠ some UnitState.outdated := by
  induction hr with
  | refl => exact noStoredOutdated_spec h0
  | tail s s' h hs ih =>
    exact anyStep_preserves_noOutdated (AnyStep.auto s s' hs) ih

theorem unit_state_upgrading_stored {cfg : Config} {sh : Shared} {u : Nat}
    (h : unit_state cfg sh u = some UnitState.upgrading) :
    (getUD sh u).state = some UnitState.upgrading := by
  unfold unit_state at h
  split at h
  · split at h
    · simp at h
    · exact h
  · exact h

/-! ### Helper lemmas: the tenacity retry loop -/

theorem retryGo_succ (env : ProbeEnv) (w : String) (fuel k : Nat) :
    retryGo env w (fuel + 1) k =
      match confirmAttempt env w k with
      | .ok b => ⟨.ok b, k + 1, k⟩
      | .error e =>
        if fuel = 0 then ⟨.error e, k + 1, k⟩
        else retryGo env w fuel (k + 1) := rfl

theorem retryGo_all_error (env : ProbeEnv) (w : String) :
    ∀ (n k : Nat) (er : PyErr),
      (∀ j, j ≤ n → ∃ e, env.read (k + j) = .error e) →
      env.read (k + n) = .error er →
      retryGo env w (n + 1) k = ⟨.error er, k + n + 1, k + n⟩ := by
  intro n
  induction n with
  | zero =>
    intro k er hall hlast
    rw [Nat.add_zero] at hlast
    simp [retryGo, confirmAttempt, hlast]
  | succ m ih =>
    intro k er hall hlast
    obtain ⟨e0, he0⟩ := hall 0 (Nat.zero_le _)
    rw [Nat.add_zero] at he0
    have hca : confirmAttempt env w k = .error e0 := by
      unfold confirmAttempt
      rw [he0]
    have hih := ih (k + 1) er
      (fun j hj => by
        obtain ⟨e, he⟩ := hall (j + 1) (Nat.succ_le_succ hj)
        exact ⟨e, by rw [show k + 1 + j = k + (j + 1) from by omega]; exact he⟩)
      (by rw [show k + 1 + m = k + (m + 1) from by omega]; exact hlast)
    rw [retryGo_succ, hca]
    show (if m + 1 = 0 then (⟨.error e0, k + 1, k⟩ : RetryResult)
      else retryGo env w (m + 1) (k + 1)) = _
    rw [if_neg (Nat.succ_ne_zero m), hih,
      show k + 1 + m = k + (m + 1) from by omega]

/-! ### Claims -/

/-- C1: for a unit whose derived state is `OUTDATED` (per the data model this
means its recorded workload container version differs from the app target,
captured by `hrev`) and that is not the highest-ordinal unit of the peer
group, `Upgrade.authorized` returns `true` exactly when every unit ranked
above it has recorded the target snap revision and state `HEALTHY`, and
returns `false` (rather than raising) whenever some higher-ranked unit fails
either condition. -/
theorem c1_authorized_iff_higher_units_ok (cfg : Config) (sh : Shared)
    (u : Nat) (hnd : cfg.units.Nodup) (hu : u ∈ cfg.units)
    (hvs : versions_set sh = true)
    (_hout : unit_state cfg sh u = some UnitState.outdated)
    (hrev : unitWCV sh u ≠ some cfg.targetRev)
    (htop : ∃ v ∈ cfg.units, u < v) :
    (authorized cfg sh u = .ok true ↔ HigherUnitsOk cfg sh u) ∧
    (¬ HigherUnitsOk cfg sh u → authorized cfg sh u = .ok false) := by
  have hpw := pairwise_gt_sorted_units hnd
  have hus : u ∈ sorted_units cfg := mem_sorted_units.mpr hu
  constructor
  · constructor
    · intro h a ha hua
      exact authorized_ok_true_higher hnd h a ha hua
    · intro h
      unfold authorized
      rw [if_neg hrev, if_neg (by simp [hvs])]
      obtain ⟨v, hv, huv⟩ := htop
      exact authorizedLoop_true_of_pass hpw hus
        ⟨v, mem_sorted_units.mpr hv, huv⟩
        fun a ha hua => h a (mem_sorted_units.mp ha) hua
  · intro h
    unfold authorized
    rw [if_neg hrev, if_neg (by simp [hvs])]
    unfold HigherUnitsOk at h
    push_neg at h
    obtain ⟨a, ha, hua, hna⟩ := h
    refine authorizedLoop_false_of_fail hpw hus
      ⟨a, mem_sorted_units.mpr ha, hua, ?_⟩
    intro hc
    exact hna hc.1 hc.2

/-- Witness for C1: at the concrete two-unit state where unit 1 has upgraded
to the target revision and is `HEALTHY`, unit 0 is authorized. -/
theorem c1_witness : authorized cfgA shTopUpgraded 0 = .ok true := by
  have h := (c1_authorized_iff_higher_units_ok cfgA shTopUpgraded 0
    (by decide) (by decide) (by decide) (by decide) (by decide)
    ⟨1, by decide, by decide⟩).1
  exact h.mpr (by decide)

/-- C2 (amended): restricted to the automatic transitions (reconcile passes,
peer-relation-created handling and the deferred post-upgrade check —
excluding the `force-upgrade` operator action, which bypasses the sequencer),
starting from any state in which no unit databag stores `UPGRADING` or a
literal `OUTDATED`, a lower-ordinal unit is never in state `UPGRADING` while
a higher-ordinal unit is `OUTDATED`. -/
theorem c2_no_upgrading_below_outdated_auto (cfg : Config) (s0 s : Shared)
    (a b : Nat) (hnd : cfg.units.Nodup)
    (h0 : NoStoredUpgrading s0 = true) (h1 : NoStoredOutdated s0 = true)
    (hr : ReachAuto cfg s0 s) (ha : a ∈ cfg.units) (hb : b ∈ cfg.units)
    (hba : b < a) :
    ¬(unit_state cfg s b = some UnitState.upgrading ∧
      unit_state cfg s a = some UnitState.outdated) := by
  rintro ⟨hbup, haout⟩
  have hinv := reachAuto_inv hnd h0 hr
  have hbst := unit_state_upgrading_stored hbup
  have hrevA := hinv b hb hbst a ha hba
  have hnoOut := reachAuto_noOutdated h1 hr a
  apply hnoOut
  unfold unit_state at haout
  rw [hrevA] at haout
  simpa using haout

/-- Witness for C2: the amended theorem applied to the initial state itself
(the empty reachability path). -/
theorem c2_witness :
    ¬(unit_state cfgA shBothOld 0 = some UnitState.upgrading ∧
      unit_state cfgA shBothOld 1 = some UnitState.outdated) :=
  c2_no_upgrading_below_outdated_auto cfgA shBothOld shBothOld 1 0
    (by decide) (by decide) (by decide) ReachAuto.refl (by decide) (by decide)
    (by decide)

/-- Counterexample to C2 as stated: with operator actions included in the
step relation, one successful `force-upgrade` of unit 0 from a fully
`HEALTHY` (but outdated-revision) state puts unit 0 into `UPGRADING` while
unit 1, of higher ordinal, is still `OUTDATED`. -/
theorem c2_counterexample_force :
    NoStoredUpgrading shBothOld = true ∧ NoStoredOutdated shBothOld = true ∧
    cfgA.units.Nodup ∧ 1 ∈ cfgA.units ∧ 0 ∈ cfgA.units ∧ (0 : Nat) < 1 ∧
    ReachAny cfgA shBothOld shForcedLow ∧
    unit_state cfgA shForcedLow 0 = some UnitState.upgrading ∧
    unit_state cfgA shForcedLow 1 = some UnitState.outdated := by
  refine ⟨by decide, by decide, by decide, by decide, by decide, by decide,
    ?_, by decide, by decide⟩
  refine ReachAny.tail shBothOld shForcedLow ReachAny.refl ?_
  exact AnyStep.force 0 shBothOld shForcedLow FResult.upgraded (by decide)
    (by decide)

/-- C3 (amended): `is_compatible` raises `AssertionError` (rather than
returning `false`) when the app-wide version record is absent; when the
record is present and carries the `charm` key it returns `false` whenever the
charm major component decreases, whenever the `workload` key is present with
a decreased major component, and whenever the `workload` key is missing; a
record without the `charm` key raises an uncaught `KeyError` instead of
returning `false`. -/
theorem c3_is_compatible_fail_closed_amended (cfg : Config) (sh : Shared) :
    (sh.appVersions = none → is_compatible cfg sh = .error .assertionError) ∧
    (∀ rv c, sh.appVersions = some rv → rv.charm = some c →
      (cfg.currentCharm.ver.major < c.ver.major →
        is_compatible cfg sh = .ok false) ∧
      (∀ w, rv.workload = some w → cfg.currentWorkload.major < w.major →
        is_compatible cfg sh = .ok false) ∧
      (rv.workload = none → is_compatible cfg sh = .ok false)) ∧
    (∀ rv, sh.appVersions = some rv → rv.charm = none →
      is_compatible cfg sh = .error .keyError) := by
  refine ⟨?_, ?_, ?_⟩
  · intro h
    simp [is_compatible, h]
  · intro rv c hA hC
    refine ⟨?_, ?_, ?_⟩
    · intro hmaj
      simp only [is_compatible, hA, hC]
      simp
      intro _ h2
      exact absurd h2 hmaj.ne'
    · intro w hW hmaj
      simp only [is_compatible, hA, hC, hW]
      simp
      intro _ _ _
      exact hmaj.ne'
    · intro hW
      simp only [is_compatible, hA, hC, hW]
      simp
  · intro rv hA hC
    simp [is_compatible, hA, hC]

/-- Witness for C3: the amended theorem applied to a state without the app
version record (assertion failure) and to a state whose recorded charm major
version is higher than the current one (incompatible). -/
theorem c3_witness :
    is_compatible cfgA shNoVersions = .error PyErr.assertionError ∧
    is_compatible cfgA shCharmMajorDrop = .ok false := by
  refine ⟨(c3_is_compatible_fail_closed_amended cfgA shNoVersions).1 rfl, ?_⟩
  exact ((c3_is_compatible_fail_closed_amended cfgA shCharmMajorDrop).2.1
    ⟨some ⟨⟨2, 0, 0⟩, none⟩, some ⟨6, 0, 6⟩⟩ ⟨⟨2, 0, 0⟩, none⟩ rfl rfl).1
    (by decide)

/-- Counterexample to C3 as stated: with the app-wide version record absent,
`is_compatible` does not return `false`; it aborts on the leading
`assert self.versions_set`. -/
theorem c3_counterexample_absent_versions :
    is_compatible cfgA shNoVersions = .error PyErr.assertionError ∧
    ¬ is_compatible cfgA shNoVersions = .ok false := by decide

/-- C4 (amended): when every read attempt raises,
`confirm_excepted_write_cluster` makes exactly 10 attempts with 9 fixed
1-second waits between them and re-raises the last error, which
`is_mongos_able_to_read_write` propagates to its caller; when the read
succeeds but the stored marker value differs from the expected one, the call
returns `False` on the first attempt — one attempt, no wait, no raise — and
the caller reports the probe failure by returning `false`. -/
theorem c4_confirm_write_retry_amended (env : ProbeEnv) (er : PyErr)
    (v : String) :
    ((∀ k, k < 10 → ∃ e, env.read k = .error e) → env.read 9 = .error er →
      confirm_excepted_write_cluster env env.writeValue = ⟨.error er, 10, 9⟩ ∧
      (env.insertResult = .ok () →
        (is_mongos_able_to_read_write env).1 = .error er)) ∧
    (env.read 0 = .ok v → v ≠ env.writeValue →
      confirm_excepted_write_cluster env env.writeValue = ⟨.ok false, 1, 0⟩ ∧
      (env.insertResult = .ok () →
        (is_mongos_able_to_read_write env).1 = .ok false)) := by
  constructor
  · intro hall hlast
    have hconf : confirm_excepted_write_cluster env env.writeValue =
        ⟨.error er, 10, 9⟩ := by
      have h := retryGo_all_error env env.writeValue 9 0 er
        (fun j hj => by simpa using hall j (by omega)) (by simpa using hlast)
      simpa [confirm_excepted_write_cluster] using h
    refine ⟨hconf, ?_⟩
    intro hins
    simp [is_mongos_able_to_read_write, hins, hconf]
  · intro h0 hv
    have hconf : confirm_excepted_write_cluster env env.writeValue =
        ⟨.ok false, 1, 0⟩ := by
      have hca : confirmAttempt env env.writeValue 0 = .ok false := by
        unfold confirmAttempt
        rw [h0]
        show (if v ≠ env.writeValue then Except.ok false else Except.ok true) =
          Except.ok false
        rw [if_pos hv]
      have h : retryGo env env.writeValue (9 + 1) 0 = ⟨.ok false, 1, 0⟩ := by
        rw [retryGo_succ, hca]
      exact h
    refine ⟨hconf, ?_⟩
    intro hins
    simp [is_mongos_able_to_read_write, hins, hconf]

/-- Witness for C4: the always-raising environment runs 10 attempts, sleeps
9 seconds in total, re-raises the driver error and the caller propagates
it. -/
theorem c4_witness :
    confirm_excepted_write_cluster envAllRaise envAllRaise.writeValue =
      ⟨.error PyErr.operationFailure, 10, 9⟩ ∧
    (is_mongos_able_to_read_write envAllRaise).1 =
      .error PyErr.operationFailure := by
  have h := (c4_confirm_write_retry_amended envAllRaise PyErr.operationFailure
    "x").1 (fun k _ => ⟨PyErr.operationFailure, rfl⟩) rfl
  exact ⟨h.1, h.2 rfl⟩

/-- Counterexample to C4 as stated: a stored marker value that never matches
does not trigger the retry loop at all — the call returns `False` after one
attempt with no backoff and raises nothing (tenacity retries only on
exceptions), and the caller returns `false` rather than raising. -/
theorem c4_counterexample_mismatch_returns_false :
    confirm_excepted_write_cluster envMismatch envMismatch.writeValue =
      ⟨.ok false, 1, 0⟩ ∧
    (is_mongos_able_to_read_write envMismatch).1 = .ok false := by decide

/-- C5 (amended): the temporary collection is dropped whenever
`confirm_excepted_write_cluster` returns normally — both on a successful
round-trip and on a marker mismatch — but when the write or the retried read
raises, the exception propagates out of `is_mongos_able_to_read_write` before
the `clear_tmp_collection` call, and the cleanup does not run. -/
theorem c5_cleanup_on_normal_return (env : ProbeEnv) (b : Bool) (e : PyErr) :
    (env.insertResult = .ok () →
      (confirm_excepted_write_cluster env env.writeValue).result = .ok b →
      (is_mongos_able_to_read_write env).1 = .ok b ∧
      (is_mongos_able_to_read_write env).2 =
        ProbeAction.insertDoc env.collName env.writeValue ::
          ((List.range
              (confirm_excepted_write_cluster env env.writeValue).attempts).map
            ProbeAction.readAttempt ++ [ProbeAction.dropColl env.collName])) ∧
    (env.insertResult = .ok () →
      (confirm_excepted_write_cluster env env.writeValue).result = .error e →
      (is_mongos_able_to_read_write env).1 = .error e ∧
      ProbeAction.dropColl env.collName ∉
        (is_mongos_able_to_read_write env).2) ∧
    (env.insertResult = .error e →
      ProbeAction.dropColl env.collName ∉
        (is_mongos_able_to_read_write env).2) := by
  refine ⟨?_, ?_, ?_⟩
  · intro hins hres
    refine ⟨?_, ?_⟩
    · simp [is_mongos_able_to_read_write, hins, hres]
    · simp [is_mongos_able_to_read_write, hins, hres]
  · intro hins hres
    refine ⟨?_, ?_⟩
    · simp [is_mongos_able_to_read_write, hins, hres]
    · simp [is_mongos_able_to_read_write, hins, hres]
  · intro hins
    simp [is_mongos_able_to_read_write, hins]

/-- Witness for C5: in the mismatching environment the probe returns `false`
and the trace still ends with the drop of the temporary collection. -/
theorem c5_witness :
    (is_mongos_able_to_read_write envMismatch).1 = .ok false ∧
    (is_mongos_able_to_read_write envMismatch).2 =
      ProbeAction.insertDoc envMismatch.collName envMismatch.writeValue ::
        ((List.range (confirm_excepted_write_cluster envMismatch
            envMismatch.writeValue).attempts).map
          ProbeAction.readAttempt ++
            [ProbeAction.dropColl envMismatch.collName]) :=
  (c5_cleanup_on_normal_return envMismatch false PyErr.operationFailure).1
    rfl (by decide)

/-- Counterexample to C5 as stated: when every read raises, the probe call
ends in the re-raised error and its operation trace contains no drop of the
temporary collection — cleanup does not run on the raising path. -/
theorem c5_counterexample_no_cleanup_on_raise :
    (is_mongos_able_to_read_write envAllRaise).1 =
      .error PyErr.operationFailure ∧
    ProbeAction.dropColl envAllRaise.collName ∉
      (is_mongos_able_to_read_write envAllRaise).2 := by decide

/-- C6 (code bug): at a state where the calling unit is the highest-ordinal
unit and the app-recorded charm version differs from the unit's own, the
claim (and `pre_upgrade_check`'s own docstring) expects the full pre-upgrade
functional check with `PrecheckFailed` on failure, caught by the reconcile
loop; the code instead raises `AttributeError` on its first statement
(`self.charm` — the constructor only sets `self._charm`), which the
`except PrecheckFailed` clause of `_reconcile_upgrade` does not catch. -/
theorem c6_pre_upgrade_check_attribute_error :
    pre_upgrade_check = .error PyErr.attributeError ∧
    authorized cfgA shBothOld 1 = .error PyErr.attributeError ∧
    ¬ authorized cfgA shBothOld 1 = .error PyErr.precheckFailed ∧
    reconcile_upgrade cfgA shBothOld 1 = .error PyErr.attributeError := by
  decide

/-- C7 (amended): the forced-upgrade action fails with "No upgrade in
progress" when the peer relation is unavailable or no upgrade is in progress,
fails with "Unit already upgraded" when the derived local state is not
`OUTDATED`, and otherwise runs `upgrade_unit` without gating on the boolean
value of `authorized` — but `upgrade_unit` does evaluate `authorized` for its
debug log, so an exception raised by that evaluation propagates and the unit
upgrade is not performed. -/
theorem c7_force_upgrade_amended (cfg : Config) (sh : Shared) (u : Nat) :
    (cfg.peerRelation = false ∨ in_progress cfg sh = false →
      on_force_upgrade_action cfg sh u =
        .ok (sh, .failed "No upgrade in progress")) ∧
    (cfg.peerRelation = true → in_progress cfg sh = true →
      unit_state cfg sh u ≠ some UnitState.outdated →
      on_force_upgrade_action cfg sh u =
        .ok (sh, .failed "Unit already upgraded")) ∧
    (cfg.peerRelation = true → in_progress cfg sh = true →
      unit_state cfg sh u = some UnitState.outdated →
      (∀ b, authorized cfg sh u = .ok b →
        on_force_upgrade_action cfg sh u =
          .ok (upgradedShared cfg sh u, .upgraded)) ∧
      (∀ e, authorized cfg sh u = .error e →
        on_force_upgrade_action cfg sh u = .error e)) := by
  refine ⟨?_, ?_, ?_⟩
  · intro h
    unfold on_force_upgrade_action
    rw [if_pos h]
  · intro hp hip hst
    unfold on_force_upgrade_action
    rw [if_neg (by simp [hp, hip]), if_pos hst]
  · intro hp hip hst
    constructor
    · intro b hb
      unfold on_force_upgrade_action
      rw [if_neg (by simp [hp, hip]), if_neg (by simp [hst]),
        upgrade_unit_of_ok hb]
    · intro e he
      unfold on_force_upgrade_action
      rw [if_neg (by simp [hp, hip]), if_neg (by simp [hst]),
        upgrade_unit_of_error he]

/-- Witness for C7: the three behaviours at concrete states — no upgrade in
progress, a unit already at the target revision, and a lower-ordinal outdated
unit whose forced upgrade succeeds (its `authorized` evaluation returns
`False` without raising, and the upgrade still runs). -/
theorem c7_witness :
    on_force_upgrade_action cfgA shAllNew 0 =
      .ok (shAllNew, .failed "No upgrade in progress") ∧
    on_force_upgrade_action cfgA shTopUpgraded 1 =
      .ok (shTopUpgraded, .failed "Unit already upgraded") ∧
    on_force_upgrade_action cfgA shBothOld 0 =
      .ok (upgradedShared cfgA shBothOld 0, .upgraded) := by
  refine ⟨?_, ?_, ?_⟩
  · exact (c7_force_upgrade_amended cfgA shAllNew 0).1 (Or.inr (by decide))
  · exact (c7_force_upgrade_amended cfgA shTopUpgraded 1).2.1 rfl (by decide)
      (by decide)
  · exact ((c7_force_upgrade_amended cfgA shBothOld 0).2.2 rfl (by decide)
      (by decide)).1 false (by decide)

/-- Counterexample to C7 as stated: an upgrade is in progress and the local
unit (the highest-ordinal one) is `OUTDATED`, yet the forced upgrade does not
perform the unit upgrade — the `authorized` evaluation inside `upgrade_unit`
(run only for a debug log) raises and the exception escapes the action. -/
theorem c7_counterexample_precheck_crash :
    cfgA.peerRelation = true ∧ in_progress cfgA shBothOld = true ∧
    unit_state cfgA shBothOld 1 = some UnitState.outdated ∧
    on_force_upgrade_action cfgA shBothOld 1 =
      .error PyErr.attributeError := by
  decide

/-- C8 (amended): provided the `authorized` evaluation performed for the
entry debug log returns (either boolean), `upgrade_unit` performs exactly, in
order: set local state `UPGRADING`, stop the router service, install the
target revision, start the router service, record the new revision and
workload version in the unit's own databag, and emit the deferred
post-upgrade-check event; when that evaluation raises, the exception
propagates and none of the steps are performed. -/
theorem c8_upgrade_unit_steps_amended (cfg : Config) (sh : Shared) (u : Nat) :
    (∀ b, authorized cfg sh u = .ok b →
      upgrade_unit cfg sh u = .ok (upgradedShared cfg sh u,
        [.setUnitState .upgrading, .stopMongos, .installSnap, .startMongos,
         .setSnapRevision cfg.targetRev,
         .setWorkloadVersion cfg.currentWorkload, .emitPostUpgradeEvent])) ∧
    (∀ e, authorized cfg sh u = .error e →
      upgrade_unit cfg sh u = .error e) :=
  ⟨fun _ hb => upgrade_unit_of_ok hb, fun _ he => upgrade_unit_of_error he⟩

/-- Witness for C8: unit 0's upgrade at the state where unit 1 already
upgraded runs the full step sequence. -/
theorem c8_witness :
    upgrade_unit cfgA shTopUpgraded 0 = .ok (upgradedShared cfgA shTopUpgraded 0,
      [.setUnitState .upgrading, .stopMongos, .installSnap, .startMongos,
       .setSnapRevision cfgA.targetRev,
       .setWorkloadVersion cfgA.currentWorkload, .emitPostUpgradeEvent]) :=
  (c8_upgrade_unit_steps_amended cfgA shTopUpgraded 0).1 true (by decide)

/-- Counterexample to C8 as stated: at the highest-ordinal outdated unit with
a differing recorded charm version, `upgrade_unit` raises during the
debug-log evaluation of `authorized` and performs none of the listed
steps. -/
theorem c8_counterexample_raises_before_steps :
    upgrade_unit cfgA shBothOld 1 = .error PyErr.attributeError := by
  decide

/-- C9: `set_versions_in_app_databag` aborts on its assertion exactly when an
upgrade is in progress, and both reconciler call sites — the guarded step
inside `_reconcile_upgrade` and `_on_upgrade_peer_relation_created` — check
`in_progress` first on the very state they pass in, so the assertion never
fires there (both always return successfully). -/
theorem c9_set_versions_assert_guarded (cfg : Config) (sh : Shared) (u : Nat) :
    (set_versions_in_app_databag cfg sh = .error .assertionError ↔
      in_progress cfg sh = true) ∧
    (∃ sh1, reconcileSetVersionsStep cfg sh u = .ok sh1) ∧
    (∃ sh1, on_upgrade_peer_relation_created cfg sh u = .ok sh1) := by
  refine ⟨?_, ?_, ?_⟩
  · unfold set_versions_in_app_databag
    by_cases hp : in_progress cfg sh
    · simp [hp]
    · rw [Bool.not_eq_true] at hp
      simp [hp]
  · unfold reconcileSetVersionsStep
    by_cases hg : u = cfg.leader ∧ in_progress cfg sh = false
    · rw [if_pos hg]
      unfold set_versions_in_app_databag
      rw [if_neg (by simp [hg.2])]
      exact ⟨_, rfl⟩
    · rw [if_neg hg]
      exact ⟨_, rfl⟩
  · unfold on_upgrade_peer_relation_created
    by_cases hg : u = cfg.leader ∧
        in_progress cfg (save_snap_revision_after_first_install cfg sh u) = false
    · rw [if_pos hg]
      unfold set_versions_in_app_databag
      rw [if_neg (by simp [hg.2])]
      exact ⟨_, rfl⟩
    · rw [if_neg hg]
      exact ⟨_, rfl⟩

/-- C10: on every state the system can reach (automatic steps and forced
upgrades) from a state whose databags never store the literal `OUTDATED`
(this charm derives that state and never writes it), whenever the reconcile
loop would reach the `authorized` evaluation — versions set and derived unit
state `OUTDATED` — both assertions at the top of `authorized` hold: the
unit's recorded container version differs from the app target and the
app-wide versions are set, so `authorized` cannot abort on `AssertionError`
from that call path. -/
theorem c10_authorized_asserts_hold_on_reconcile_path (cfg : Config)
    (s0 s : Shared) (u : Nat) (h0 : NoStoredOutdated s0 = true)
    (hr : ReachAny cfg s0 s) (hvs : versions_set s = true)
    (hout : unit_state cfg s u = some UnitState.outdated) :
    unitWCV s u ≠ some cfg.targetRev ∧ versions_set s = true ∧
      authorized cfg s u ≠ .error .assertionError := by
  have hno := reachAny_noOutdated h0 hr u
  have hne : unitWCV s u ≠ some cfg.targetRev := by
    intro heq
    apply hno
    unfold unit_state at hout
    rw [heq] at hout
    simpa using hout
  refine ⟨hne, hvs, ?_⟩
  unfold authorized
  rw [if_neg hne, if_neg (by simp [hvs])]
  exact authorizedLoop_ne_assert

/-- Witness for C10: the concrete two-unit state with both units on the old
revision, taken as its own reachable state. -/
theorem c10_witness :
    unitWCV shBothOld 0 ≠ some cfgA.targetRev ∧
    versions_set shBothOld = true ∧
    authorized cfgA shBothOld 0 ≠ .error .assertionError :=
  c10_authorized_asserts_hold_on_reconcile_path cfgA shBothOld shBothOld 0
    (by decide) ReachAny.refl (by decide) (by decide)
